import Mathlib

/-!
Verification of the Vulkan-Samples frame-lifecycle and resource-reuse engine.

The development shallowly embeds:
* the semaphore pool and per-frame resource bundle (`SemaphorePool`,
  `RenderFrame`), whose implementation files are not part of the excerpt and
  are therefore modelled from the specification;
* the frame-orchestration state machine (`RenderContext`), likewise modelled
  from the specification (only `render_context.h` is in the excerpt);
* swapchain priority-list negotiation (modelled from the specification);
* `get_supported_depth_format` from `framework/common/vk_common.cpp`;
* `LinuxD2DPlatform::terminate` and `LinuxD2DPlatform::poll_terminal`
  together with the `key_map` table from
  `framework/platform/linux/linux_d2d_platform.cpp`.
-/

set_option maxRecDepth 8192

namespace VulkanSamples

/-- Modelled from the spec: `semaphore_pool.cpp` is not in the excerpt.
State of `vkb::SemaphorePool` (`framework/semaphore_pool.h`): a growable list
of semaphore handles plus a high-water counter of handles in use this cycle.
Handles are modelled as natural numbers; `next_handle` is the source of fresh
driver handles, so a driver creation call is visible as a `next_handle`
increment. -/
structure SemaphorePool where
  semaphores : List Nat
  active_semaphore_count : Nat
  next_handle : Nat
deriving DecidableEq, Repr

/-- Modelled from the spec: `request_semaphore()` returns the existing handle
at index `active_semaphore_count` and increments the counter when the counter
is below the backing-list length; otherwise it creates a fresh handle, appends
it, and increments the counter. -/
def SemaphorePool.request_semaphore (p : SemaphorePool) : Nat × SemaphorePool :=
  if h : p.active_semaphore_count < p.semaphores.length then
    (p.semaphores.get ⟨p.active_semaphore_count, h⟩,
      { p with active_semaphore_count := p.active_semaphore_count + 1 })
  else
    (p.next_handle,
      { semaphores := p.semaphores ++ [p.next_handle],
        active_semaphore_count := p.active_semaphore_count + 1,
        next_handle := p.next_handle + 1 })

/-- Modelled from the spec: `reset()` sets `active_semaphore_count = 0` and
releases nothing. -/
def SemaphorePool.reset (p : SemaphorePool) : SemaphorePool :=
  { p with active_semaphore_count := 0 }

/-- Well-formedness: every pooled handle was created before `next_handle`, so
a freshly created handle is distinct from all pooled ones. -/
def SemaphorePool.WF (p : SemaphorePool) : Prop :=
  ∀ s ∈ p.semaphores, s < p.next_handle

instance (p : SemaphorePool) : Decidable p.WF := by
  unfold SemaphorePool.WF
  infer_instance

/-- Iterate `request_semaphore` `n` times, keeping only the pool state. -/
def SemaphorePool.requestN : Nat → SemaphorePool → SemaphorePool
  | 0, p => p
  | n + 1, p => SemaphorePool.requestN n (p.request_semaphore).2

/-- Modelled from the spec: a command pool owns the command buffers recorded
from it; a full-pool reset invalidates all of them. -/
structure CommandPool where
  recorded_buffers : List Nat
deriving DecidableEq, Repr

/-- Modelled from the spec: full-pool reset discards every recorded buffer. -/
def CommandPool.reset_pool (_cp : CommandPool) : CommandPool :=
  { recorded_buffers := [] }

/-- Modelled from the spec: `render_frame.cpp` is not in the excerpt.
A `vkb::RenderFrame` bundles command pools, a semaphore pool and a
buffer-allocation ring for one swapchain image. -/
structure RenderFrame where
  command_pools : List CommandPool
  semaphore_pool : SemaphorePool
  buffer_ring_offset : Nat
deriving DecidableEq, Repr

/-- Modelled from the spec: `RenderFrame::reset()` resets every command pool,
resets the semaphore pool's active count to zero, and rewinds the buffer
ring. -/
def RenderFrame.reset (f : RenderFrame) : RenderFrame :=
  { command_pools := f.command_pools.map CommandPool.reset_pool,
    semaphore_pool := f.semaphore_pool.reset,
    buffer_ring_offset := 0 }

/-- A frame as constructed during `prepare()`/`recreate()`: pools with the
configured policy (command-pool count) and no pooled GPU handles. -/
def fresh_frame (command_pools_per_frame : Nat) : RenderFrame :=
  { command_pools := List.replicate command_pools_per_frame { recorded_buffers := [] },
    semaphore_pool := { semaphores := [], active_semaphore_count := 0, next_handle := 0 },
    buffer_ring_offset := 0 }

/-- Modelled from the spec: `render_context.cpp` is not in the excerpt.
State of `vkb::RenderContext` (`framework/rendering/render_context.h`): the
swapchain image count, one `RenderFrame` per swapchain image, the current
active frame index, the `frame_active` flag and the staged (pending)
image-count request recorded by `update_swapchain`. -/
structure RenderContext where
  image_count : Nat
  frames : List RenderFrame
  active_frame_index : Nat
  frame_active : Bool
  pending_image_count : Option Nat
  command_pools_per_frame : Nat
deriving DecidableEq, Repr

/-- Replace the `i`-th element of a list by `g` applied to it. -/
def update_nth {α : Type} (g : α → α) : Nat → List α → List α
  | _, [] => []
  | 0, x :: xs => g x :: xs
  | n + 1, x :: xs => x :: update_nth g n xs

/-- Modelled from the spec: `begin_frame()` fails if a frame is already
active; otherwise it acquires the next image index (round-robin over the
swapchain image count), marks the frame active, and resets that frame's
pools. -/
def RenderContext.begin_frame (ctx : RenderContext) : Except String RenderContext :=
  if ctx.frame_active then
    Except.error "begin_frame while a frame is already active"
  else if ctx.frames.length = 0 then
    Except.error "begin_frame without a prepared swapchain"
  else
    let next := (ctx.active_frame_index + 1) % ctx.frames.length
    Except.ok
      { ctx with
        active_frame_index := next,
        frame_active := true,
        frames := update_nth RenderFrame.reset next ctx.frames }

/-- Modelled from the spec: `submit` requires an active frame; it requests a
signal semaphore from the active frame's semaphore pool and leaves the
lifecycle flags unchanged. -/
def RenderContext.submit (ctx : RenderContext) : Except String RenderContext :=
  if ctx.frame_active then
    Except.ok
      { ctx with
        frames :=
          update_nth
            (fun f => { f with semaphore_pool := (f.semaphore_pool.request_semaphore).2 })
            ctx.active_frame_index ctx.frames }
  else
    Except.error "submit without an active frame"

/-- Modelled from the spec: `end_frame` presents the active frame's image and
clears `frame_active`; it requires an active frame. -/
def RenderContext.end_frame (ctx : RenderContext) : Except String RenderContext :=
  if ctx.frame_active then
    Except.ok { ctx with frame_active := false }
  else
    Except.error "end_frame without an active frame"

/-- Modelled from the spec: `get_active_frame` raises an error whenever
`frame_active` is false. -/
def RenderContext.get_active_frame (ctx : RenderContext) : Except String RenderFrame :=
  if h : ctx.frame_active ∧ ctx.active_frame_index < ctx.frames.length then
    Except.ok (ctx.frames.get ⟨ctx.active_frame_index, h.2⟩)
  else
    Except.error "get_active_frame with no active frame"

/-- Modelled from the spec: `update_swapchain(image_count)` stages a new image
count, deferring actual recreation. -/
def RenderContext.update_swapchain_image_count (ctx : RenderContext) (k : Nat) : RenderContext :=
  { ctx with pending_image_count := some k }

/-- Modelled from the spec: `recreate()` fails while a frame is active;
otherwise it rebuilds the swapchain with the pending image count (keeping the
current count when nothing is pending) and reconstructs all `RenderFrame`s
with fresh pools, preserving only the pool policy. -/
def RenderContext.recreate (ctx : RenderContext) : Except String RenderContext :=
  if ctx.frame_active then
    Except.error "recreate while a frame is active"
  else
    let k := ctx.pending_image_count.getD ctx.image_count
    Except.ok
      { image_count := k,
        frames := List.replicate k (fresh_frame ctx.command_pools_per_frame),
        active_frame_index := 0,
        frame_active := false,
        pending_image_count := none,
        command_pools_per_frame := ctx.command_pools_per_frame }

/-- Run an `Except`-producing operation, keeping the previous state when the
operation reports a contract violation. -/
def or_keep (r : Except String RenderContext) (ctx : RenderContext) : RenderContext :=
  match r with
  | Except.ok c => c
  | Except.error _ => ctx

/-- The operations a caller can perform on a `RenderContext`. -/
inductive ContextOp where
  | begin_op : ContextOp
  | submit_op : ContextOp
  | end_op : ContextOp
  | recreate_op : ContextOp
  | update_op : Nat → ContextOp
deriving DecidableEq, Repr

/-- One step of the `RenderContext` state machine. -/
def RenderContext.apply_op (ctx : RenderContext) : ContextOp → RenderContext
  | ContextOp.begin_op => or_keep ctx.begin_frame ctx
  | ContextOp.submit_op => or_keep ctx.submit ctx
  | ContextOp.end_op => or_keep ctx.end_frame ctx
  | ContextOp.recreate_op => or_keep ctx.recreate ctx
  | ContextOp.update_op k => ctx.update_swapchain_image_count k

/-- Run a sequence of operations. -/
def RenderContext.run_ops (ctx : RenderContext) (ops : List ContextOp) : RenderContext :=
  ops.foldl RenderContext.apply_op ctx

/-- The invariants of a context with a prepared swapchain: the active index is
in range, there is exactly one frame per swapchain image, and any staged
image count is positive (the driver never reports a swapchain of zero
images). -/
def RenderContext.Good (ctx : RenderContext) : Prop :=
  ctx.active_frame_index < ctx.frames.length ∧
  ctx.frames.length = ctx.image_count ∧
  0 < ctx.pending_image_count.getD 1

/-- An operation a caller can legitimately issue: staged image counts come
from driver capability queries and are therefore positive. -/
def ValidOp : ContextOp → Prop
  | ContextOp.update_op k => 0 < k
  | _ => True

instance (op : ContextOp) : Decidable (ValidOp op) := by
  cases op <;> unfold ValidOp <;> infer_instance

instance (ctx : RenderContext) : Decidable ctx.Good := by
  unfold RenderContext.Good
  infer_instance

/-- Iterate `submit` `n` times. -/
def RenderContext.submitN : Nat → RenderContext → Except String RenderContext
  | 0, ctx => Except.ok ctx
  | n + 1, ctx =>
      match ctx.submit with
      | Except.ok c => RenderContext.submitN n c
      | Except.error e => Except.error e

/-- One whole `begin_frame`/`end_frame` cycle. -/
def RenderContext.cycle (ctx : RenderContext) : Except String RenderContext :=
  ctx.begin_frame.bind RenderContext.end_frame

/-- Iterate whole frame cycles. -/
def RenderContext.cycleN : Nat → RenderContext → Except String RenderContext
  | 0, ctx => Except.ok ctx
  | j + 1, ctx => ctx.cycle.bind (RenderContext.cycleN j)

/-- Vulkan surface formats used by the excerpt (`VkFormat` constructors named
as in the Vulkan headers, restricted to the formats the claims mention). -/
inductive VkFormat where
  | R8G8B8A8_SRGB : VkFormat
  | B8G8R8A8_SRGB : VkFormat
  | R8G8B8A8_UNORM : VkFormat
  | B8G8R8A8_UNORM : VkFormat
  | D32_SFLOAT_S8_UINT : VkFormat
  | D32_SFLOAT : VkFormat
  | D24_UNORM_S8_UINT : VkFormat
  | D16_UNORM_S8_UINT : VkFormat
  | D16_UNORM : VkFormat
  | UNDEFINED : VkFormat
deriving DecidableEq, Repr

/-- Vulkan present modes (`VkPresentModeKHR`). -/
inductive VkPresentModeKHR where
  | IMMEDIATE : VkPresentModeKHR
  | MAILBOX : VkPresentModeKHR
  | FIFO : VkPresentModeKHR
  | FIFO_RELAXED : VkPresentModeKHR
  | SHARED_DEMAND_REFRESH : VkPresentModeKHR
  | SHARED_CONTINUOUS_REFRESH : VkPresentModeKHR
deriving DecidableEq, Repr

/-- Modelled from the spec: the swapchain-negotiation code
(`core/swapchain.cpp`) is not in the excerpt. Selection walks the priority
list in order and picks the first entry present in the surface-supported
set. -/
def choose_by_priority {α : Type} [DecidableEq α]
    (priority_list supported : List α) : Option α :=
  priority_list.find? (fun m => decide (m ∈ supported))

/-- Modelled from the spec: present-mode negotiation falls back to FIFO, which
the platform guarantees to be supported, when no priority entry intersects
the supported set. -/
def choose_present_mode (priority_list supported : List VkPresentModeKHR) : VkPresentModeKHR :=
  (choose_by_priority priority_list supported).getD VkPresentModeKHR.FIFO

/-- `VK_FORMAT_FEATURE_DEPTH_STENCIL_ATTACHMENT_BIT` from the Vulkan headers. -/
def VK_FORMAT_FEATURE_DEPTH_STENCIL_ATTACHMENT_BIT : Nat := 512

/-- Format capabilities reported by `vkGetPhysicalDeviceFormatProperties`,
restricted to the field the code reads. -/
structure VkFormatProperties where
  optimalTilingFeatures : Nat
deriving DecidableEq, Repr

/-- The fixed candidate list of `get_supported_depth_format`
(`framework/common/vk_common.cpp`, lines 129-134), highest precision first. -/
def depth_formats : List VkFormat :=
  [VkFormat.D32_SFLOAT_S8_UINT,
   VkFormat.D32_SFLOAT,
   VkFormat.D24_UNORM_S8_UINT,
   VkFormat.D16_UNORM_S8_UINT,
   VkFormat.D16_UNORM]

/-- The scan loop of `get_supported_depth_format`: try each candidate in
order; on the first whose optimal-tiling features include depth-stencil
attachment support, write it to the output parameter and return true. The
output parameter is threaded explicitly: the second component is its value
after the call. -/
def get_supported_depth_format_loop (props : VkFormat → VkFormatProperties) :
    List VkFormat → VkFormat → Bool × VkFormat
  | [], depth_format => (false, depth_format)
  | f :: rest, depth_format =>
      if (props f).optimalTilingFeatures &&& VK_FORMAT_FEATURE_DEPTH_STENCIL_ATTACHMENT_BIT ≠ 0 then
        (true, f)
      else
        get_supported_depth_format_loop props rest depth_format

/-- Embedding of `vkb::get_supported_depth_format`
(`framework/common/vk_common.cpp`, lines 125-149). The physical device is
abstracted as its `vkGetPhysicalDeviceFormatProperties` response; the
`VkFormat *depth_format` output parameter is threaded by value. -/
def get_supported_depth_format (props : VkFormat → VkFormatProperties)
    (depth_format : VkFormat) : Bool × VkFormat :=
  get_supported_depth_format_loop props depth_formats depth_format

/-- Application exit codes (`Platform::ExitCode`); the enum declaration is
outside the excerpt, so representative constructors are used: `Success` plus
non-success codes. -/
inductive ExitCode where
  | Success : ExitCode
  | UnableToRun : ExitCode
  | FatalError : ExitCode
deriving DecidableEq, Repr

/-- Embedding of `LinuxD2DPlatform::terminate`
(`framework/platform/linux/linux_d2d_platform.cpp`, lines 441-450): the value
it forwards to `Platform::terminate` as a function of its `code` argument.
The source passes `ExitCode::Success` unconditionally. -/
def LinuxD2DPlatform_terminate_forward (_code : ExitCode) : ExitCode :=
  ExitCode.Success

/-- Key codes (`vkb::KeyCode`), restricted to the constructors `key_map`
uses. -/
inductive KeyCode where
  | Unknown : KeyCode
  | Backspace : KeyCode
  | Tab : KeyCode
  | Enter : KeyCode
  | Escape : KeyCode
  | Space : KeyCode
  | D0 : KeyCode
  | D1 : KeyCode
  | D2 : KeyCode
  | D3 : KeyCode
  | D4 : KeyCode
  | D5 : KeyCode
  | D6 : KeyCode
  | D7 : KeyCode
  | D8 : KeyCode
  | D9 : KeyCode
  | Apostrophe : KeyCode
  | Backslash : KeyCode
  | Equal : KeyCode
  | Comma : KeyCode
  | Minus : KeyCode
  | Period : KeyCode
  | Slash : KeyCode
  | Semicolon : KeyCode
  | A : KeyCode
  | B : KeyCode
  | C : KeyCode
  | D : KeyCode
  | E : KeyCode
  | F : KeyCode
  | G : KeyCode
  | H : KeyCode
  | I : KeyCode
  | J : KeyCode
  | K : KeyCode
  | L : KeyCode
  | M : KeyCode
  | N : KeyCode
  | O : KeyCode
  | P : KeyCode
  | Q : KeyCode
  | R : KeyCode
  | S : KeyCode
  | T : KeyCode
  | U : KeyCode
  | V : KeyCode
  | W : KeyCode
  | X : KeyCode
  | Y : KeyCode
  | Z : KeyCode
  | LeftBracket : KeyCode
  | RightBracket : KeyCode
  | GraveAccent : KeyCode
deriving DecidableEq, Repr

/-- The static `key_map` table of
`framework/platform/linux/linux_d2d_platform.cpp` (lines 229-357), transcribed
entry for entry. The source spells the digit keys `_0`..`_9`; they are named
`D0`..`D9` here. -/
def key_map : List KeyCode :=
  [KeyCode.Unknown,
   KeyCode.Unknown,
   KeyCode.Unknown,
   KeyCode.Unknown,
   KeyCode.Unknown,
   KeyCode.Unknown,
   KeyCode.Unknown,
   KeyCode.Unknown,
   KeyCode.Backspace,
   KeyCode.Tab,
   KeyCode.Unknown,
   KeyCode.Unknown,
   KeyCode.Unknown,
   KeyCode.Enter,
   KeyCode.Unknown,
   KeyCode.Unknown,
   KeyCode.Unknown,
   KeyCode.Unknown,
   KeyCode.Unknown,
   KeyCode.Unknown,
   KeyCode.Unknown,
   KeyCode.Unknown,
   KeyCode.Unknown,
   KeyCode.Unknown,
   KeyCode.Unknown,
   KeyCode.Unknown,
   KeyCode.Unknown,
   KeyCode.Escape,
   KeyCode.Unknown,
   KeyCode.Unknown,
   KeyCode.Unknown,
   KeyCode.Unknown,
   KeyCode.Space,
   KeyCode.D1,
   KeyCode.Apostrophe,
   KeyCode.Backslash,
   KeyCode.D4,
   KeyCode.D5,
   KeyCode.D7,
   KeyCode.Apostrophe,
   KeyCode.D9,
   KeyCode.D0,
   KeyCode.D8,
   KeyCode.Equal,
   KeyCode.Comma,
   KeyCode.Minus,
   KeyCode.Period,
   KeyCode.Slash,
   KeyCode.D0,
   KeyCode.D1,
   KeyCode.D2,
   KeyCode.D3,
   KeyCode.D4,
   KeyCode.D5,
   KeyCode.D6,
   KeyCode.D7,
   KeyCode.D8,
   KeyCode.D9,
   KeyCode.Semicolon,
   KeyCode.Semicolon,
   KeyCode.Comma,
   KeyCode.Equal,
   KeyCode.Period,
   KeyCode.Slash,
   KeyCode.D2,
   KeyCode.A,
   KeyCode.B,
   KeyCode.C,
   KeyCode.D,
   KeyCode.E,
   KeyCode.F,
   KeyCode.G,
   KeyCode.H,
   KeyCode.I,
   KeyCode.J,
   KeyCode.K,
   KeyCode.L,
   KeyCode.M,
   KeyCode.N,
   KeyCode.O,
   KeyCode.P,
   KeyCode.Q,
   KeyCode.R,
   KeyCode.S,
   KeyCode.T,
   KeyCode.U,
   KeyCode.V,
   KeyCode.W,
   KeyCode.X,
   KeyCode.Y,
   KeyCode.Z,
   KeyCode.LeftBracket,
   KeyCode.Backslash,
   KeyCode.RightBracket,
   KeyCode.D6,
   KeyCode.Minus,
   KeyCode.GraveAccent,
   KeyCode.A,
   KeyCode.B,
   KeyCode.C,
   KeyCode.D,
   KeyCode.E,
   KeyCode.F,
   KeyCode.G,
   KeyCode.H,
   KeyCode.I,
   KeyCode.J,
   KeyCode.K,
   KeyCode.L,
   KeyCode.M,
   KeyCode.N,
   KeyCode.O,
   KeyCode.P,
   KeyCode.Q,
   KeyCode.R,
   KeyCode.S,
   KeyCode.T,
   KeyCode.U,
   KeyCode.V,
   KeyCode.W,
   KeyCode.X,
   KeyCode.Y,
   KeyCode.Z,
   KeyCode.LeftBracket,
   KeyCode.Backslash,
   KeyCode.RightBracket,
   KeyCode.GraveAccent,
   KeyCode.Backspace]

/-- The key-down decision of `LinuxD2DPlatform::poll_terminal`
(`framework/platform/linux/linux_d2d_platform.cpp`, lines 399-430): given the
result of `::read` (`bytes`) and the byte it stored (`key`), the table lookup
and the key-down input event happen exactly when `bytes > 0 && key > 0 &&
key < sizeof(key_map) / sizeof(KeyCode)`; the emitted key is `key_map[key]`.
The escape multi-character remap downstream of the lookup does not affect
whether an event is emitted and is not modelled. -/
def poll_terminal_event (bytes : Int) (key : Nat) : Option KeyCode :=
  if h : 0 < bytes ∧ 0 < key ∧ key < key_map.length then
    some (key_map.get ⟨key, h.2.2⟩)
  else
    none

/-- A concrete semaphore pool with two pooled handles, both in use. -/
def sample_pool : SemaphorePool :=
  { semaphores := [10, 11], active_semaphore_count := 2, next_handle := 12 }

/-- A concrete render frame with one recorded command buffer and a used
semaphore pool. -/
def sample_frame : RenderFrame :=
  { command_pools := [{ recorded_buffers := [0] }],
    semaphore_pool := sample_pool,
    buffer_ring_offset := 7 }

/-- A concrete prepared render context with three swapchain images. -/
def sample_context : RenderContext :=
  { image_count := 3,
    frames := List.replicate 3 (fresh_frame 1),
    active_frame_index := 0,
    frame_active := false,
    pending_image_count := none,
    command_pools_per_frame := 1 }

/-- The sample context with a staged image-count change to two images. -/
def sample_context_pending : RenderContext :=
  { sample_context with pending_image_count := some 2 }

/-- A physical device supporting no depth format. -/
def sample_props_unsupported : VkFormat → VkFormatProperties :=
  fun _ => { optimalTilingFeatures := 0 }

/-- A physical device whose only depth-stencil-capable format is
`D24_UNORM_S8_UINT`. -/
def sample_props_d24 : VkFormat → VkFormatProperties :=
  fun f =>
    if f = VkFormat.D24_UNORM_S8_UINT then
      { optimalTilingFeatures := VK_FORMAT_FEATURE_DEPTH_STENCIL_ATTACHMENT_BIT }
    else
      { optimalTilingFeatures := 0 }

theorem request_semaphore_of_lt (p : SemaphorePool)
    (h : p.active_semaphore_count < p.semaphores.length) :
    p.request_semaphore =
      (p.semaphores.get ⟨p.active_semaphore_count, h⟩,
        { p with active_semaphore_count := p.active_semaphore_count + 1 }) := by
  unfold SemaphorePool.request_semaphore
  rw [dif_pos h]

theorem request_semaphore_of_ge (p : SemaphorePool)
    (h : p.semaphores.length ≤ p.active_semaphore_count) :
    p.request_semaphore =
      (p.next_handle,
        { semaphores := p.semaphores ++ [p.next_handle],
          active_semaphore_count := p.active_semaphore_count + 1,
          next_handle := p.next_handle + 1 }) := by
  unfold SemaphorePool.request_semaphore
  rw [dif_neg (Nat.not_lt.mpr h)]

theorem requestN_reuse (k : Nat) : ∀ p : SemaphorePool,
    p.active_semaphore_count + k ≤ p.semaphores.length →
    (SemaphorePool.requestN k p).semaphores = p.semaphores ∧
    (SemaphorePool.requestN k p).next_handle = p.next_handle ∧
    (SemaphorePool.requestN k p).active_semaphore_count = p.active_semaphore_count + k := by
  induction k with
  | zero =>
      intro p _
      simp [SemaphorePool.requestN]
  | succ n ih =>
      intro p h
      have hlt : p.active_semaphore_count < p.semaphores.length := by omega
      have hreq : (p.request_semaphore).2 =
          { p with active_semaphore_count := p.active_semaphore_count + 1 } := by
        rw [request_semaphore_of_lt p hlt]
      have hstep : SemaphorePool.requestN (n + 1) p =
          SemaphorePool.requestN n { p with active_semaphore_count := p.active_semaphore_count + 1 } := by
        rw [SemaphorePool.requestN, hreq]
      obtain ⟨e1, e2, e3⟩ :=
        ih { p with active_semaphore_count := p.active_semaphore_count + 1 }
          (by show p.active_semaphore_count + 1 + n ≤ p.semaphores.length; omega)
      refine ⟨by rw [hstep]; exact e1, by rw [hstep]; exact e2, ?_⟩
      rw [hstep, e3]
      show p.active_semaphore_count + 1 + n = p.active_semaphore_count + (n + 1)
      omega

/-- Claim C5: `request_semaphore()` returns the existing handle at index
`active_semaphore_count` and increments the counter when the counter is below
the backing-list length (no creation); otherwise it creates a fresh handle,
appends it to the backing vector, and increments the counter; consequently,
after a reset, requests are served from the existing backing storage (no new
creation, `next_handle` unchanged) until the active count exceeds the prior
peak (the backing length). -/
theorem C5_request_semaphore_spec (p : SemaphorePool) :
    (∀ h : p.active_semaphore_count < p.semaphores.length,
      (p.request_semaphore).1 = p.semaphores.get ⟨p.active_semaphore_count, h⟩ ∧
      (p.request_semaphore).1 ∈ p.semaphores ∧
      (p.request_semaphore).2.semaphores = p.semaphores ∧
      (p.request_semaphore).2.next_handle = p.next_handle ∧
      (p.request_semaphore).2.active_semaphore_count = p.active_semaphore_count + 1) ∧
    (p.semaphores.length ≤ p.active_semaphore_count →
      (p.request_semaphore).2.semaphores = p.semaphores ++ [(p.request_semaphore).1] ∧
      (p.request_semaphore).2.next_handle = p.next_handle + 1 ∧
      (p.request_semaphore).2.active_semaphore_count = p.active_semaphore_count + 1 ∧
      (p.WF → (p.request_semaphore).1 ∉ p.semaphores)) ∧
    (∀ k, k ≤ p.semaphores.length →
      (SemaphorePool.requestN k p.reset).semaphores = p.semaphores ∧
      (SemaphorePool.requestN k p.reset).next_handle = p.next_handle ∧
      (SemaphorePool.requestN k p.reset).active_semaphore_count = k) := by
  refine ⟨?_, ?_, ?_⟩
  · intro h
    rw [request_semaphore_of_lt p h]
    exact ⟨rfl, p.semaphores.get_mem _ _, rfl, rfl, rfl⟩
  · intro h
    rw [request_semaphore_of_ge p h]
    refine ⟨rfl, rfl, rfl, ?_⟩
    intro hwf hmem
    exact absurd (hwf _ hmem) (lt_irrefl _)
  · intro k hk
    have h := requestN_reuse k p.reset (by show 0 + k ≤ p.semaphores.length; omega)
    exact ⟨h.1, h.2.1, by rw [h.2.2]; show 0 + k = k; omega⟩

theorem C5_witness :
    (SemaphorePool.requestN 2 sample_pool.reset).semaphores = [10, 11] ∧
    (SemaphorePool.requestN 2 sample_pool.reset).next_handle = 12 ∧
    (SemaphorePool.requestN 2 sample_pool.reset).active_semaphore_count = 2 := by
  have h := (C5_request_semaphore_spec sample_pool).2.2 2 (by decide)
  simpa [sample_pool] using h

/-- Claim C6: `SemaphorePool::reset()` sets `active_semaphore_count` to 0 and
changes nothing else: the backing vector is unchanged and no handle is
destroyed or released to the driver (`next_handle` unchanged means no driver
call happened). -/
theorem C6_reset_effect (p : SemaphorePool) :
    p.reset.active_semaphore_count = 0 ∧
    p.reset.semaphores = p.semaphores ∧
    p.reset.next_handle = p.next_handle :=
  ⟨rfl, rfl, rfl⟩

/-- Claim C7: `RenderFrame::reset()` is idempotent: two consecutive resets
with no intervening allocation give the same state as one reset, leave
`active_semaphore_count` at 0, and therefore every subsequent allocation
behaves identically. -/
theorem C7_reset_idempotent (f : RenderFrame) :
    RenderFrame.reset (RenderFrame.reset f) = RenderFrame.reset f ∧
    (RenderFrame.reset f).semaphore_pool.active_semaphore_count = 0 ∧
    ∀ alloc : RenderFrame → Nat × RenderFrame,
      alloc (RenderFrame.reset (RenderFrame.reset f)) = alloc (RenderFrame.reset f) := by
  have hidem : RenderFrame.reset (RenderFrame.reset f) = RenderFrame.reset f := by
    simp [RenderFrame.reset, SemaphorePool.reset, CommandPool.reset_pool, List.map_map,
      Function.comp]
  exact ⟨hidem, rfl, fun alloc => by rw [hidem]⟩

theorem update_nth_length {α : Type} (g : α → α) : ∀ (n : Nat) (l : List α),
    (update_nth g n l).length = l.length := by
  intro n l
  induction l generalizing n with
  | nil => cases n <;> rfl
  | cons x xs ih =>
      cases n with
      | zero => rfl
      | succ m => simpa [update_nth] using ih m

theorem begin_frame_ok (ctx : RenderContext) (h0 : ctx.frame_active = false)
    (hn : 0 < ctx.frames.length) :
    ctx.begin_frame = Except.ok
      { ctx with
        active_frame_index := (ctx.active_frame_index + 1) % ctx.frames.length,
        frame_active := true,
        frames :=
          update_nth RenderFrame.reset
            ((ctx.active_frame_index + 1) % ctx.frames.length) ctx.frames } := by
  unfold RenderContext.begin_frame
  rw [if_neg (by simp [h0]), if_neg (by omega)]

theorem begin_frame_error (ctx : RenderContext) (h : ctx.frame_active = true) :
    ∃ e, ctx.begin_frame = Except.error e := by
  unfold RenderContext.begin_frame
  rw [if_pos h]
  exact ⟨_, rfl⟩

theorem submit_ok (ctx : RenderContext) (h : ctx.frame_active = true) :
    ctx.submit = Except.ok
      { ctx with
        frames :=
          update_nth
            (fun f => { f with semaphore_pool := (f.semaphore_pool.request_semaphore).2 })
            ctx.active_frame_index ctx.frames } := by
  unfold RenderContext.submit
  rw [if_pos h]

theorem end_frame_ok (ctx : RenderContext) (h : ctx.frame_active = true) :
    ctx.end_frame = Except.ok { ctx with frame_active := false } := by
  unfold RenderContext.end_frame
  rw [if_pos h]

theorem get_active_frame_error (ctx : RenderContext) (h : ctx.frame_active = false) :
    ∃ e, ctx.get_active_frame = Except.error e := by
  unfold RenderContext.get_active_frame
  rw [dif_neg (by simp [h])]
  exact ⟨_, rfl⟩

theorem submitN_ok (m : Nat) : ∀ ctx : RenderContext, ctx.frame_active = true →
    ∃ c, RenderContext.submitN m ctx = Except.ok c ∧ c.frame_active = true ∧
      c.active_frame_index = ctx.active_frame_index ∧
      c.frames.length = ctx.frames.length := by
  induction m with
  | zero =>
      intro ctx h
      exact ⟨ctx, rfl, h, rfl, rfl⟩
  | succ n ih =>
      intro ctx h
      have hs := submit_ok ctx h
      obtain ⟨c, hc, hca, hci, hcl⟩ :=
        ih { ctx with
              frames :=
                update_nth
                  (fun f => { f with semaphore_pool := (f.semaphore_pool.request_semaphore).2 })
                  ctx.active_frame_index ctx.frames } h
      refine ⟨c, ?_, hca, hci, by rw [hcl]; exact update_nth_length _ _ _⟩
      simp only [RenderContext.submitN, hs]
      exact hc

/-- Claim C1: in any `begin_frame` → submit* → `end_frame` sequence from a
quiescent prepared context, `frame_active` is false before `begin_frame`,
true strictly between `begin_frame` and `end_frame` (after the begin and
after every submit), and false after `end_frame`; `get_active_frame` raises
an error whenever `frame_active` is false, and `begin_frame` raises an error
whenever a frame is already active. -/
theorem C1_frame_lifecycle (ctx : RenderContext) (n : Nat)
    (h0 : ctx.frame_active = false) (hn : 0 < ctx.frames.length) :
    (∃ e, ctx.get_active_frame = Except.error e) ∧
    (∃ c1 c2 c3,
      ctx.begin_frame = Except.ok c1 ∧
      c1.frame_active = true ∧
      (∃ e, c1.begin_frame = Except.error e) ∧
      (∀ m, ∃ cm, RenderContext.submitN m c1 = Except.ok cm ∧ cm.frame_active = true) ∧
      RenderContext.submitN n c1 = Except.ok c2 ∧
      c2.frame_active = true ∧
      c2.end_frame = Except.ok c3 ∧
      c3.frame_active = false ∧
      (∃ e, c3.get_active_frame = Except.error e)) ∧
    (∀ c : RenderContext, c.frame_active = false → ∃ e, c.get_active_frame = Except.error e) ∧
    (∀ c : RenderContext, c.frame_active = true → ∃ e, c.begin_frame = Except.error e) := by
  have hbegin := begin_frame_ok ctx h0 hn
  obtain ⟨c2, h2, h2a, _, _⟩ :=
    submitN_ok n
      { ctx with
        active_frame_index := (ctx.active_frame_index + 1) % ctx.frames.length,
        frame_active := true,
        frames :=
          update_nth RenderFrame.reset
            ((ctx.active_frame_index + 1) % ctx.frames.length) ctx.frames } rfl
  refine ⟨get_active_frame_error ctx h0,
    ⟨_, c2, { c2 with frame_active := false }, hbegin, rfl, begin_frame_error _ rfl, ?_,
      h2, h2a, end_frame_ok c2 h2a, rfl, get_active_frame_error _ rfl⟩,
    fun c hc => get_active_frame_error c hc,
    fun c hc => begin_frame_error c hc⟩
  intro m
  obtain ⟨cm, hm, hma, _, _⟩ :=
    submitN_ok m
      { ctx with
        active_frame_index := (ctx.active_frame_index + 1) % ctx.frames.length,
        frame_active := true,
        frames :=
          update_nth RenderFrame.reset
            ((ctx.active_frame_index + 1) % ctx.frames.length) ctx.frames } rfl
  exact ⟨cm, hm, hma⟩

theorem C1_witness :
    ∃ c1 c2 c3,
      sample_context.begin_frame = Except.ok c1 ∧
      c1.frame_active = true ∧
      (∃ e, c1.begin_frame = Except.error e) ∧
      (∀ m, ∃ cm, RenderContext.submitN m c1 = Except.ok cm ∧ cm.frame_active = true) ∧
      RenderContext.submitN 2 c1 = Except.ok c2 ∧
      c2.frame_active = true ∧
      c2.end_frame = Except.ok c3 ∧
      c3.frame_active = false ∧
      (∃ e, c3.get_active_frame = Except.error e) :=
  (C1_frame_lifecycle sample_context 2 rfl (by decide)).2.1

theorem cycle_ok (ctx : RenderContext) (h0 : ctx.frame_active = false)
    (hn : 0 < ctx.frames.length) :
    ∃ c, ctx.cycle = Except.ok c ∧ c.frame_active = false ∧
      c.frames.length = ctx.frames.length ∧
      c.active_frame_index = (ctx.active_frame_index + 1) % ctx.frames.length := by
  have hb := begin_frame_ok ctx h0 hn
  refine ⟨{ ctx with
      active_frame_index := (ctx.active_frame_index + 1) % ctx.frames.length,
      frame_active := false,
      frames :=
        update_nth RenderFrame.reset
          ((ctx.active_frame_index + 1) % ctx.frames.length) ctx.frames },
    ?_, rfl, update_nth_length _ _ _, rfl⟩
  unfold RenderContext.cycle
  rw [hb]
  exact end_frame_ok _ rfl

theorem cycleN_ok (j : Nat) : ∀ ctx : RenderContext, ctx.frame_active = false →
    0 < ctx.frames.length → ctx.active_frame_index < ctx.frames.length →
    ∃ c, RenderContext.cycleN j ctx = Except.ok c ∧ c.frame_active = false ∧
      c.frames.length = ctx.frames.length ∧
      c.active_frame_index = (ctx.active_frame_index + j) % ctx.frames.length := by
  induction j with
  | zero =>
      intro ctx h0 hn hi
      exact ⟨ctx, rfl, h0, rfl, by rw [Nat.add_zero, Nat.mod_eq_of_lt hi]⟩
  | succ m ih =>
      intro ctx h0 hn hi
      obtain ⟨c, hc, hca, hcl, hcidx⟩ := cycle_ok ctx h0 hn
      obtain ⟨d, hd, hda, hdl, hdidx⟩ :=
        ih c hca (by rw [hcl]; exact hn)
          (by rw [hcidx, hcl]; exact Nat.mod_lt _ hn)
      refine ⟨d, ?_, hda, by rw [hdl, hcl], ?_⟩
      · simp only [RenderContext.cycleN, hc]
        exact hd
      · rw [hdidx, hcidx, hcl, Nat.mod_add_mod]
        congr 1
        omega

theorem mod_round_robin_inj (n a j k : Nat) (hj : j < n) (hk : k < n)
    (h : (a + j) % n = (a + k) % n) : j = k := by
  have h2 : j ≡ k [MOD n] := (Nat.ModEq.refl a).add_left_cancel h
  have h3 : j % n = k % n := h2
  rwa [Nat.mod_eq_of_lt hj, Nat.mod_eq_of_lt hk] at h3

theorem or_keep_error (r : Except String RenderContext) (ctx : RenderContext)
    (e : String) (h : r = Except.error e) : or_keep r ctx = ctx := by
  rw [h]
  rfl

theorem apply_op_good (ctx : RenderContext) (op : ContextOp)
    (hg : ctx.Good) (hv : ValidOp op) : (ctx.apply_op op).Good := by
  obtain ⟨hi, hl, hp⟩ := hg
  have hn : 0 < ctx.frames.length := Nat.lt_of_le_of_lt (Nat.zero_le _) hi
  cases op with
  | begin_op =>
      by_cases hact : ctx.frame_active = true
      · obtain ⟨e, he⟩ := begin_frame_error ctx hact
        have hk : ctx.apply_op ContextOp.begin_op = ctx := or_keep_error _ _ e he
        rw [hk]
        exact ⟨hi, hl, hp⟩
      · have h0 : ctx.frame_active = false := by simpa using hact
        have hb := begin_frame_ok ctx h0 hn
        have hk : ctx.apply_op ContextOp.begin_op =
            { ctx with
              active_frame_index := (ctx.active_frame_index + 1) % ctx.frames.length,
              frame_active := true,
              frames :=
                update_nth RenderFrame.reset
                  ((ctx.active_frame_index + 1) % ctx.frames.length) ctx.frames } := by
          show or_keep ctx.begin_frame ctx = _
          rw [hb]
          rfl
        rw [hk]
        refine ⟨?_, ?_, hp⟩
        · show (ctx.active_frame_index + 1) % ctx.frames.length <
            (update_nth RenderFrame.reset _ ctx.frames).length
          rw [update_nth_length]
          exact Nat.mod_lt _ hn
        · show (update_nth RenderFrame.reset _ ctx.frames).length = ctx.image_count
          rw [update_nth_length]
          exact hl
  | submit_op =>
      by_cases hact : ctx.frame_active = true
      · have hs := submit_ok ctx hact
        have hk : ctx.apply_op ContextOp.submit_op =
            { ctx with
              frames :=
                update_nth
                  (fun f => { f with semaphore_pool := (f.semaphore_pool.request_semaphore).2 })
                  ctx.active_frame_index ctx.frames } := by
          show or_keep ctx.submit ctx = _
          rw [hs]
          rfl
        rw [hk]
        refine ⟨?_, ?_, hp⟩
        · show ctx.active_frame_index < (update_nth _ _ ctx.frames).length
          rw [update_nth_length]
          exact hi
        · show (update_nth _ _ ctx.frames).length = ctx.image_count
          rw [update_nth_length]
          exact hl
      · have h0 : ctx.frame_active = false := by simpa using hact
        have hk : ctx.apply_op ContextOp.submit_op = ctx := by
          show or_keep ctx.submit ctx = ctx
          unfold RenderContext.submit
          rw [if_neg (by simp [h0])]
          rfl
        rw [hk]
        exact ⟨hi, hl, hp⟩
  | end_op =>
      by_cases hact : ctx.frame_active = true
      · have hk : ctx.apply_op ContextOp.end_op = { ctx with frame_active := false } := by
          show or_keep ctx.end_frame ctx = _
          rw [end_frame_ok ctx hact]
          rfl
        rw [hk]
        exact ⟨hi, hl, hp⟩
      · have h0 : ctx.frame_active = false := by simpa using hact
        have hk : ctx.apply_op ContextOp.end_op = ctx := by
          show or_keep ctx.end_frame ctx = ctx
          unfold RenderContext.end_frame
          rw [if_neg (by simp [h0])]
          rfl
        rw [hk]
        exact ⟨hi, hl, hp⟩
  | recreate_op =>
      by_cases hact : ctx.frame_active = true
      · have hk : ctx.apply_op ContextOp.recreate_op = ctx := by
          show or_keep ctx.recreate ctx = ctx
          unfold RenderContext.recreate
          rw [if_pos hact]
          rfl
        rw [hk]
        exact ⟨hi, hl, hp⟩
      · have h0 : ctx.frame_active = false := by simpa using hact
        have hk : ctx.apply_op ContextOp.recreate_op =
            { image_count := ctx.pending_image_count.getD ctx.image_count,
              frames :=
                List.replicate (ctx.pending_image_count.getD ctx.image_count)
                  (fresh_frame ctx.command_pools_per_frame),
              active_frame_index := 0,
              frame_active := false,
              pending_image_count := none,
              command_pools_per_frame := ctx.command_pools_per_frame } := by
          show or_keep ctx.recreate ctx = _
          unfold RenderContext.recreate
          rw [if_neg (by simp [h0])]
          rfl
        rw [hk]
        have hkpos : 0 < ctx.pending_image_count.getD ctx.image_count := by
          cases hpc : ctx.pending_image_count with
          | none =>
              simp only [hpc, Option.getD]
              omega
          | some k =>
              have := hp
              rw [hpc] at this
              simpa using this
        refine ⟨?_, ?_, by simp⟩
        · show 0 < (List.replicate (ctx.pending_image_count.getD ctx.image_count) _).length
          rw [List.length_replicate]
          exact hkpos
        · show (List.replicate (ctx.pending_image_count.getD ctx.image_count) _).length =
            ctx.pending_image_count.getD ctx.image_count
          exact List.length_replicate _ _
  | update_op k =>
      have hvk : 0 < k := hv
      refine ⟨hi, hl, ?_⟩
      show 0 < (some k).getD 1
      simpa using hvk

theorem run_ops_good : ∀ (ops : List ContextOp) (ctx : RenderContext),
    ctx.Good → (∀ op ∈ ops, ValidOp op) → (ctx.run_ops ops).Good := by
  intro ops
  induction ops with
  | nil =>
      intro ctx hg _
      exact hg
  | cons op rest ih =>
      intro ctx hg hv
      have h1 := apply_op_good ctx op hg (hv op (by simp))
      have h2 := ih (ctx.apply_op op) h1 (fun o ho => hv o (by simp [ho]))
      simpa [RenderContext.run_ops, List.foldl] using h2

/-- Claim C2: in every state reachable from a prepared context by valid
operations, `active_frame_index` lies in `[0, frames.length)`; and from any
quiescent state, `j` whole frame cycles move the index to
`(start + j) % frames.length`, so the first `frames.length` `begin_frame`
calls visit pairwise-distinct image slots (round-robin over the swapchain
image count). -/
theorem C2_active_index_round_robin :
    (∀ (ctx : RenderContext) (ops : List ContextOp),
      ctx.Good → (∀ op ∈ ops, ValidOp op) →
      (ctx.run_ops ops).active_frame_index < (ctx.run_ops ops).frames.length) ∧
    (∀ ctx : RenderContext, ctx.frame_active = false →
      ctx.active_frame_index < ctx.frames.length →
      (∀ j, ∃ c, RenderContext.cycleN j ctx = Except.ok c ∧
        c.frames.length = ctx.frames.length ∧
        c.active_frame_index = (ctx.active_frame_index + j) % ctx.frames.length) ∧
      (∀ j k, j < ctx.frames.length → k < ctx.frames.length →
        (ctx.active_frame_index + (j + 1)) % ctx.frames.length =
          (ctx.active_frame_index + (k + 1)) % ctx.frames.length → j = k)) := by
  constructor
  · intro ctx ops hg hv
    exact (run_ops_good ops ctx hg hv).1
  · intro ctx h0 hi
    have hn : 0 < ctx.frames.length := Nat.lt_of_le_of_lt (Nat.zero_le _) hi
    constructor
    · intro j
      obtain ⟨c, hc, _, hcl, hcidx⟩ := cycleN_ok j ctx h0 hn hi
      exact ⟨c, hc, hcl, hcidx⟩
    · intro j k hj hk h
      have h2 : (ctx.active_frame_index + 1 + j) % ctx.frames.length =
          (ctx.active_frame_index + 1 + k) % ctx.frames.length := by
        have ej : ctx.active_frame_index + (j + 1) = ctx.active_frame_index + 1 + j := by omega
        have ek : ctx.active_frame_index + (k + 1) = ctx.active_frame_index + 1 + k := by omega
        rw [ej, ek] at h
        exact h
      exact mod_round_robin_inj ctx.frames.length (ctx.active_frame_index + 1) j k hj hk h2

theorem C2_witness :
    (sample_context.run_ops
      [ContextOp.begin_op, ContextOp.submit_op, ContextOp.end_op,
       ContextOp.update_op 2, ContextOp.recreate_op]).active_frame_index <
    (sample_context.run_ops
      [ContextOp.begin_op, ContextOp.submit_op, ContextOp.end_op,
       ContextOp.update_op 2, ContextOp.recreate_op]).frames.length :=
  C2_active_index_round_robin.1 sample_context
    [ContextOp.begin_op, ContextOp.submit_op, ContextOp.end_op,
     ContextOp.update_op 2, ContextOp.recreate_op]
    (by refine ⟨by decide, by decide, by decide⟩)
    (by intro op hop; fin_cases hop <;> simp [ValidOp])

theorem recreate_ok (ctx : RenderContext) (h0 : ctx.frame_active = false) :
    ctx.recreate = Except.ok
      { image_count := ctx.pending_image_count.getD ctx.image_count,
        frames :=
          List.replicate (ctx.pending_image_count.getD ctx.image_count)
            (fresh_frame ctx.command_pools_per_frame),
        active_frame_index := 0,
        frame_active := false,
        pending_image_count := none,
        command_pools_per_frame := ctx.command_pools_per_frame } := by
  unfold RenderContext.recreate
  rw [if_neg (by simp [h0])]

theorem recreate_error (ctx : RenderContext) (h : ctx.frame_active = true) :
    ∃ e, ctx.recreate = Except.error e := by
  unfold RenderContext.recreate
  rw [if_pos h]
  exact ⟨_, rfl⟩

/-- Claim C4: `recreate()` with a staged image count `k` leaves exactly `k`
`RenderFrame`s, each equal to a freshly constructed frame whose pools hold no
command buffer recorded before the recreation and whose semaphore pool is
empty; `recreate()` fails while a frame is active; and one valid step from
any good state preserves the invariant `frames.length = image_count`. -/
theorem C4_recreate_frames (ctx : RenderContext) (k : Nat)
    (h0 : ctx.frame_active = false) (hp : ctx.pending_image_count = some k) :
    (∃ c, ctx.recreate = Except.ok c ∧
      c.frames.length = k ∧
      c.image_count = k ∧
      c.frames.length = c.image_count ∧
      ∀ f ∈ c.frames,
        f = fresh_frame ctx.command_pools_per_frame ∧
        f.semaphore_pool.active_semaphore_count = 0 ∧
        f.semaphore_pool.semaphores = [] ∧
        ∀ cp ∈ f.command_pools, cp.recorded_buffers = []) ∧
    (∀ c : RenderContext, c.frame_active = true → ∃ e, c.recreate = Except.error e) ∧
    (∀ (c : RenderContext) (op : ContextOp), c.Good → ValidOp op →
      (c.apply_op op).frames.length = (c.apply_op op).image_count) := by
  refine ⟨?_, fun c hc => recreate_error c hc,
    fun c op hg hv => ((apply_op_good c op hg hv).2).1⟩
  have hr := recreate_ok ctx h0
  rw [hp] at hr
  refine ⟨_, hr, ?_, rfl, ?_, ?_⟩
  · show (List.replicate ((some k).getD ctx.image_count) _).length = k
    simp
  · show (List.replicate ((some k).getD ctx.image_count) _).length =
      (some k).getD ctx.image_count
    simp
  · intro f hf
    have hfe : f = fresh_frame ctx.command_pools_per_frame := List.eq_of_mem_replicate hf
    subst hfe
    refine ⟨rfl, rfl, rfl, ?_⟩
    intro cp hcp
    have := List.eq_of_mem_replicate hcp
    rw [this]

theorem C4_witness :
    ∃ c, sample_context_pending.recreate = Except.ok c ∧
      c.frames.length = 2 ∧
      c.image_count = 2 ∧
      c.frames.length = c.image_count ∧
      ∀ f ∈ c.frames,
        f = fresh_frame sample_context_pending.command_pools_per_frame ∧
        f.semaphore_pool.active_semaphore_count = 0 ∧
        f.semaphore_pool.semaphores = [] ∧
        ∀ cp ∈ f.command_pools, cp.recorded_buffers = [] :=
  (C4_recreate_frames sample_context_pending 2 rfl rfl).1

theorem find_first_match {α : Type} (q : α → Bool) : ∀ (pre : List α) (x : α) (post : List α),
    (∀ y ∈ pre, q y = false) → q x = true →
    List.find? q (pre ++ x :: post) = some x := by
  intro pre
  induction pre with
  | nil =>
      intro x post _ hx
      simp [List.find?_cons_of_pos, hx]
  | cons y ys ih =>
      intro x post hpre hx
      have hy : q y = false := hpre y (by simp)
      rw [List.cons_append, List.find?_cons_of_neg _ (by simp [hy])]
      exact ih x post (fun z hz => hpre z (by simp [hz])) hx

theorem choose_by_priority_first {α : Type} [DecidableEq α]
    (supported : List α) (pre : List α) (x : α) (post : List α)
    (hpre : ∀ y ∈ pre, y ∉ supported) (hx : x ∈ supported) :
    choose_by_priority (pre ++ x :: post) supported = some x := by
  unfold choose_by_priority
  exact find_first_match _ pre x post
    (fun y hy => by simpa using hpre y hy) (by simpa using hx)

theorem choose_by_priority_congr {α : Type} [DecidableEq α]
    (priority s1 s2 : List α) (h : ∀ x, x ∈ s1 ↔ x ∈ s2) :
    choose_by_priority priority s1 = choose_by_priority priority s2 := by
  unfold choose_by_priority
  congr 1
  funext m
  simp [h m]

/-- Claim C3: swapchain negotiation selects the first entry of the priority
list that is in the surface-supported set, independently of the order the
driver reports the supported set; with supported formats A and C and priority
list [A, B, C] it selects A (under either driver order), and a present-mode
priority [MAILBOX, FIFO] on a surface supporting only FIFO yields FIFO
(fallback, not failure). -/
theorem C3_priority_selection :
    (∀ (supported pre post : List VkFormat) (f : VkFormat),
      (∀ g ∈ pre, g ∉ supported) → f ∈ supported →
      choose_by_priority (pre ++ f :: post) supported = some f) ∧
    (∀ (priority s1 s2 : List VkFormat), (∀ x, x ∈ s1 ↔ x ∈ s2) →
      choose_by_priority priority s1 = choose_by_priority priority s2) ∧
    choose_by_priority
      [VkFormat.R8G8B8A8_SRGB, VkFormat.B8G8R8A8_SRGB, VkFormat.R8G8B8A8_UNORM]
      [VkFormat.R8G8B8A8_SRGB, VkFormat.R8G8B8A8_UNORM] = some VkFormat.R8G8B8A8_SRGB ∧
    choose_by_priority
      [VkFormat.R8G8B8A8_SRGB, VkFormat.B8G8R8A8_SRGB, VkFormat.R8G8B8A8_UNORM]
      [VkFormat.R8G8B8A8_UNORM, VkFormat.R8G8B8A8_SRGB] = some VkFormat.R8G8B8A8_SRGB ∧
    choose_present_mode
      [VkPresentModeKHR.MAILBOX, VkPresentModeKHR.FIFO]
      [VkPresentModeKHR.FIFO] = VkPresentModeKHR.FIFO := by
  refine ⟨?_, ?_, by decide, by decide, by decide⟩
  · intro supported pre post f hpre hf
    exact choose_by_priority_first supported pre f post hpre hf
  · intro priority s1 s2 h
    exact choose_by_priority_congr priority s1 s2 h

theorem C3_witness :
    choose_by_priority
      [VkFormat.B8G8R8A8_SRGB, VkFormat.B8G8R8A8_UNORM]
      [VkFormat.B8G8R8A8_UNORM] = some VkFormat.B8G8R8A8_UNORM :=
  C3_priority_selection.1 [VkFormat.B8G8R8A8_UNORM] [VkFormat.B8G8R8A8_SRGB] []
    VkFormat.B8G8R8A8_UNORM (by decide) (by decide)

theorem depth_loop_first (props : VkFormat → VkFormatProperties) :
    ∀ (pre : List VkFormat) (f : VkFormat) (post : List VkFormat) (prev : VkFormat),
    (∀ g ∈ pre,
      (props g).optimalTilingFeatures &&& VK_FORMAT_FEATURE_DEPTH_STENCIL_ATTACHMENT_BIT = 0) →
    (props f).optimalTilingFeatures &&& VK_FORMAT_FEATURE_DEPTH_STENCIL_ATTACHMENT_BIT ≠ 0 →
    get_supported_depth_format_loop props (pre ++ f :: post) prev = (true, f) := by
  intro pre
  induction pre with
  | nil =>
      intro f post prev _ hf
      simp [get_supported_depth_format_loop, hf]
  | cons y ys ih =>
      intro f post prev hpre hf
      have hy := hpre y (by simp)
      rw [List.cons_append]
      show get_supported_depth_format_loop props (y :: (ys ++ f :: post)) prev = (true, f)
      rw [get_supported_depth_format_loop, if_neg (by simp [hy])]
      exact ih f post prev (fun z hz => hpre z (by simp [hz])) hf

theorem depth_loop_none (props : VkFormat → VkFormatProperties) :
    ∀ (l : List VkFormat) (prev : VkFormat),
    (∀ g ∈ l,
      (props g).optimalTilingFeatures &&& VK_FORMAT_FEATURE_DEPTH_STENCIL_ATTACHMENT_BIT = 0) →
    get_supported_depth_format_loop props l prev = (false, prev) := by
  intro l
  induction l with
  | nil =>
      intro prev _
      rfl
  | cons y ys ih =>
      intro prev h
      have hy := h y (by simp)
      rw [get_supported_depth_format_loop, if_neg (by simp [hy])]
      exact ih prev (fun z hz => h z (by simp [hz]))

/-- Claim C8: `get_supported_depth_format` scans the fixed list
[D32_SFLOAT_S8_UINT, D32_SFLOAT, D24_UNORM_S8_UINT, D16_UNORM_S8_UINT,
D16_UNORM] in order; for the first format whose optimal-tiling features
include depth-stencil attachment support it writes that format to the output
parameter and returns true; if no listed format is supported it returns false
and leaves the output parameter unchanged. -/
theorem C8_depth_format_scan (props : VkFormat → VkFormatProperties) (prev : VkFormat) :
    (∀ (pre post : List VkFormat) (f : VkFormat),
      depth_formats = pre ++ f :: post →
      (∀ g ∈ pre,
        (props g).optimalTilingFeatures &&& VK_FORMAT_FEATURE_DEPTH_STENCIL_ATTACHMENT_BIT = 0) →
      (props f).optimalTilingFeatures &&& VK_FORMAT_FEATURE_DEPTH_STENCIL_ATTACHMENT_BIT ≠ 0 →
      get_supported_depth_format props prev = (true, f)) ∧
    ((∀ g ∈ depth_formats,
        (props g).optimalTilingFeatures &&& VK_FORMAT_FEATURE_DEPTH_STENCIL_ATTACHMENT_BIT = 0) →
      get_supported_depth_format props prev = (false, prev)) := by
  constructor
  · intro pre post f hsplit hpre hf
    unfold get_supported_depth_format
    rw [hsplit]
    exact depth_loop_first props pre f post prev hpre hf
  · intro h
    unfold get_supported_depth_format
    exact depth_loop_none props depth_formats prev h

theorem C8_witness :
    get_supported_depth_format sample_props_d24 VkFormat.UNDEFINED =
      (true, VkFormat.D24_UNORM_S8_UINT) :=
  (C8_depth_format_scan sample_props_d24 VkFormat.UNDEFINED).1
    [VkFormat.D32_SFLOAT_S8_UINT, VkFormat.D32_SFLOAT]
    [VkFormat.D16_UNORM_S8_UINT, VkFormat.D16_UNORM]
    VkFormat.D24_UNORM_S8_UINT rfl (by decide) (by decide)

/-- Claim C9: `LinuxD2DPlatform::terminate` ignores its `ExitCode` argument:
for every value of `code` it forwards `ExitCode::Success` to
`Platform::terminate`, so a non-success exit code passed by the caller is
never propagated. -/
theorem C9_terminate_ignores_code (code : ExitCode) :
    LinuxD2DPlatform_terminate_forward code = ExitCode.Success ∧
    (code ≠ ExitCode.Success → LinuxD2DPlatform_terminate_forward code ≠ code) := by
  refine ⟨rfl, ?_⟩
  intro h hcontra
  unfold LinuxD2DPlatform_terminate_forward at hcontra
  exact h hcontra.symm

theorem C9_witness :
    LinuxD2DPlatform_terminate_forward ExitCode.FatalError = ExitCode.Success ∧
    LinuxD2DPlatform_terminate_forward ExitCode.FatalError ≠ ExitCode.FatalError := by
  have h := C9_terminate_ignores_code ExitCode.FatalError
  exact ⟨h.1, h.2 (by decide)⟩

/-- Claim C10 as stated is false on the code: `key_map` has 128 entries, not
123, and the guard in `poll_terminal` is `key < 128`; the byte value 125,
outside the claimed range `(0, 123)`, is read (`bytes = 1`) and still
produces a key-down input event. -/
theorem C10_counterexample :
    poll_terminal_event 1 125 = some KeyCode.RightBracket ∧ ¬ (125 : Nat) < 123 :=
  ⟨by decide, by decide⟩

/-- Claim C10 (amended): `poll_terminal` never indexes `key_map` out of
bounds: the table has 128 entries, the lookup and the key-down event happen
only when a byte was actually read (`bytes > 0`) and `0 < key <
key_map.length = 128`, and every byte outside that range produces no key-down
input event. -/
theorem C10_guard_bounds (bytes : Int) (key : Nat) :
    key_map.length = 128 ∧
    (¬ (0 < bytes ∧ 0 < key ∧ key < key_map.length) →
      poll_terminal_event bytes key = none) ∧
    (∀ e : KeyCode, poll_terminal_event bytes key = some e →
      0 < bytes ∧ 0 < key ∧ key < key_map.length) := by
  refine ⟨by decide, ?_, ?_⟩
  · intro h
    unfold poll_terminal_event
    rw [dif_neg h]
  · intro e he
    by_cases h : 0 < bytes ∧ 0 < key ∧ key < key_map.length
    · exact h
    · unfold poll_terminal_event at he
      rw [dif_neg h] at he
      exact absurd he (by simp)

theorem C10_witness :
    poll_terminal_event 1 0 = none ∧ key_map.length = 128 := by
  have h := C10_guard_bounds 1 0
  exact ⟨h.2.1 (by decide), h.1⟩

end VulkanSamples
